import Mathlib

/-!
Shallow embedding of the NONG manifest manager of the jukebox repository
(src/src/managers/nong_manager.cpp, src/src/compat/v2.hpp), together with
theorems settling the frozen claims about it.

Modelling conventions:
* The field `m_manifest.m_nongs`, a C++ unordered map from int to an
  owning pointer to a Nongs aggregate, is modelled as an association
  list with the standard-library semantics: insert is a no-op when the
  key is already present, and the bracket operator default-constructs a
  null owning pointer for an absent key (a null pointer is modelled as a
  stored `none`).
* Filesystem reads and host-game functions are parameters; paths are
  strings and path joins are explicit string concatenation with a
  separator.
* The Nongs aggregate itself lives in headers that are not part of the
  given sources; its data and the few operations the manager calls are
  modelled from the spec and marked as such in their doc comments. The
  manager entry points of claim C6 are verified for every behaviour of
  the delegated aggregate operations, which are passed as parameters.
* C++ ints are modelled as `Int`; no reachable arithmetic in the
  translated code overflows 32 bits (noted where relevant).
-/

namespace Jukebox

/-- Modelled from the spec: `SongMetadata` (spec section 3); the struct
definition is not under the given sources. Constructor argument order
follows the braced initializers in nong_manager.cpp: gdID, uniqueID,
name, artist, startOffset (which defaults to 0 when omitted). -/
structure SongMetadata where
  gdID : Int
  uniqueID : String
  name : String
  artist : String
  startOffset : Int
deriving DecidableEq, Repr

/-- Modelled from the spec: a Local audio entry (spec section 3) —
metadata plus a filesystem path (empty for the placeholder entry). -/
structure LocalSong where
  metadata : SongMetadata
  path : String
deriving DecidableEq, Repr

/-- Modelled from the spec: the closed sum of audio entry variants (spec
sections 3 and 9). Only Local entries carry a path, so the optional-path
accessor used by getMultiAssetSizes returns `none` on the others. -/
inductive Song where
  | localSong (metadata : SongMetadata) (path : String) : Song
  | youtube (metadata : SongMetadata) (url : String) : Song
  | hosted (metadata : SongMetadata) (url : String) : Song
deriving DecidableEq, Repr

def Song.metadata : Song → SongMetadata
  | Song.localSong md _ => md
  | Song.youtube md _ => md
  | Song.hosted md _ => md

/-- The optional path accessor on an audio entry, as dereferenced by
getMultiAssetSizes via `.value()`. -/
def Song.path : Song → Option String
  | Song.localSong _ p => some p
  | Song.youtube _ _ => none
  | Song.hosted _ _ => none

/-- Modelled from the spec: the per-ID Nongs aggregate (spec section 3);
its header is not under the given sources. -/
structure Nongs where
  songID : Int
  defaultSong : LocalSong
  locals : List LocalSong
  youtubes : List Song
  hosteds : List Song
  activeID : String
deriving DecidableEq, Repr

/-- Modelled from the spec: the two-argument Nongs constructor used by
nong_manager.cpp — empty candidate lists, active selection on the
default entry (spec section 3). -/
def Nongs.new (songID : Int) (d : LocalSong) : Nongs :=
  ⟨songID, d, [], [], [], d.metadata.uniqueID⟩

/-- Modelled from the spec: `LocalSong::createUnknown` — placeholder
name and artist, empty path (spec section 3). The concrete placeholder
strings are not observable by any claim. -/
def LocalSong.createUnknown (songID : Int) : LocalSong :=
  ⟨⟨songID, "default", "Unknown", "Unknown", 0⟩, ""⟩

/-- Modelled from the spec: `Nongs::active()` — resolves the activeID
among the default entry and the candidate lists (spec section 3;
invariant 2 guarantees resolution, and the model falls back to the
default entry when unresolved). -/
def Nongs.active (n : Nongs) : Song :=
  if n.activeID == n.defaultSong.metadata.uniqueID then
    Song.localSong n.defaultSong.metadata n.defaultSong.path
  else
    match n.locals.find? (fun l => l.metadata.uniqueID == n.activeID) with
    | some l => Song.localSong l.metadata l.path
    | none =>
      match (n.youtubes ++ n.hosteds).find?
          (fun s => s.metadata.uniqueID == n.activeID) with
      | some s => s
      | none => Song.localSong n.defaultSong.metadata n.defaultSong.path

def Nongs.allUniqueIDs (n : Nongs) : List String :=
  n.defaultSong.metadata.uniqueID ::
    (n.locals.map (fun l => l.metadata.uniqueID) ++
      (n.youtubes ++ n.hosteds).map (fun s => s.metadata.uniqueID))

/-- Modelled from the spec: `Nongs::add` (spec section 4.1) — fails on a
uniqueID collision or a gdID mismatch, otherwise appends the Local entry
to the locals list without changing the active selection. -/
def Nongs.add (n : Nongs) (s : LocalSong) : Except String Nongs :=
  if s.metadata.gdID != n.songID then
    Except.error "Invalid gdID"
  else if n.allUniqueIDs.any (fun u => u == s.metadata.uniqueID) then
    Except.error "Duplicate uniqueID"
  else
    Except.ok ⟨n.songID, n.defaultSong, n.locals ++ [s], n.youtubes,
      n.hosteds, n.activeID⟩

/-- The mutation performed by the SongInfoFetched listener
(nong_manager.cpp, lines 188-189): overwrite the name and artist of the
default entry, keeping every other field. -/
def Nongs.withDefaultMeta (n : Nongs) (nm ar : String) : Nongs :=
  ⟨n.songID,
    ⟨⟨n.defaultSong.metadata.gdID, n.defaultSong.metadata.uniqueID, nm, ar,
      n.defaultSong.metadata.startOffset⟩, n.defaultSong.path⟩,
    n.locals, n.youtubes, n.hosteds, n.activeID⟩

/-- NongManager::adjustSongID (nong_manager.cpp, lines 41-43). For a
robtop id the negation `-id - 1` is applied only to non-negative ids, so
the expression never overflows a 32-bit int on the representable range
and `Int` models it exactly. -/
def adjustSongID (id : Int) (robtop : Bool) : Int :=
  if robtop then (if id < 0 then id else -id - 1) else id

/-- The manifest map of the manager with owning-pointer values: a stored
`none` is a null pointer, as default-constructed by the bracket operator
on an absent key. -/
abbrev ManifestN := List (Int × Option Nongs)

def mnContains (m : ManifestN) (k : Int) : Bool :=
  m.any (fun p => p.1 == k)

def mnLookup (m : ManifestN) (k : Int) : Option (Option Nongs) :=
  (m.find? (fun p => p.1 == k)).map Prod.snd

/-- Map insert: a no-op when the key is already present. -/
def mnInsert (m : ManifestN) (k : Int) (v : Nongs) : ManifestN :=
  if mnContains m k then m else m ++ [(k, some v)]

/-- The map bracket operator: default-constructs a null owning pointer
for an absent key; returns the updated map and the stored pointer. -/
def mnBracket (m : ManifestN) (k : Int) : ManifestN × Option Nongs :=
  match mnLookup m k with
  | some v => (m, v)
  | none => (m ++ [(k, none)], none)

/-- The two SongInfoObject fields read by initSongID. -/
structure SongInfoObject where
  m_songName : String
  m_artistName : String
deriving DecidableEq, Repr

/-- Host-environment functions consumed by initSongID (LevelTools,
CCFileUtils, random_string, MusicDownloadManager) — all outside the
given sources, passed as parameters. `randomString` is the value
produced by the 16-character random string generator. -/
structure InitEnv where
  getAudioFileName : Int → String
  writablePath2 : String
  randomString : String
  getSongInfoObject : Int → Option SongInfoObject
  pathForSong : Int → String

/-- NongManager::initSongID (nong_manager.cpp, lines 45-99), translated
branch by branch. The second component records the final index
registration call: `none` when the function returns before reaching it,
`some p` when registerIndexNongs is called with pointer `p` (so
`some none` means a null pointer was registered). The early-return for a
missing song object of a robtop song, the cache query, and the
server-fetch placeholder branch (which returns before registration) are
all kept. -/
def initSongID (env : InitEnv) (m0 : ManifestN) (obj0 : Option SongInfoObject)
    (id : Int) (robtop : Bool) : ManifestN × Option (Option Nongs) :=
  if mnContains m0 id then (m0, none)
  else if obj0.isNone && robtop then (m0, none)
  else
    match obj0, robtop with
    | some obj, true =>
      let adjusted := adjustSongID id robtop
      let filename := env.getAudioFileName id
      let m1 := mnInsert m0 adjusted
        (Nongs.new adjusted
          ⟨⟨adjusted, env.randomString, obj.m_songName, obj.m_artistName, 0⟩,
            env.writablePath2 ++ "/Resources/" ++ filename⟩)
      let br := mnBracket m1 id
      (br.1, some br.2)
    | _, _ =>
      let obj1 :=
        match obj0 with
        | some o => some o
        | none => env.getSongInfoObject id
      match obj1 with
      | none =>
        (mnInsert m0 id (Nongs.new id (LocalSong.createUnknown id)), none)
      | some obj =>
        let m1 := mnInsert m0 id
          (Nongs.new id
            ⟨⟨id, env.randomString, obj.m_songName, obj.m_artistName, 0⟩,
              env.pathForSong id⟩)
        let br := mnBracket m1 id
        (br.1, some br.2)

/-- The manifest map restricted to non-null aggregates: every execution
that avoids the robtop branch of initSongID (see claim C1) keeps all
stored owning pointers non-null, and the rest of the manager relies on
that. -/
abbrev Manifest := List (Int × Nongs)

def mContains (m : Manifest) (k : Int) : Bool :=
  m.any (fun p => p.1 == k)

def mLookup (m : Manifest) (k : Int) : Option Nongs :=
  (m.find? (fun p => p.1 == k)).map Prod.snd

/-- Map insert: a no-op when the key is already present. -/
def mInsert (m : Manifest) (k : Int) (v : Nongs) : Manifest :=
  if mContains m k then m else m ++ [(k, v)]

/-- In-place mutation through the stored pointer: replace the value at
key `k`. -/
def mUpdate (m : Manifest) (k : Int) (v : Nongs) : Manifest :=
  m.map (fun p => if p.1 == k then (k, v) else p)

/-- NongManager::getNongs (nong_manager.cpp, lines 29-35). -/
def getNongs (m : Manifest) (songID : Int) : Option Nongs :=
  if !(mContains m songID) then none
  else mLookup m songID

/-- The keys of the manifest map are pairwise distinct — automatic for
the C++ map, stated as a hypothesis where needed for the list model. -/
abbrev keysNodup (m : Manifest) : Prop := (m.map Prod.fst).Nodup

/-- The string returned by NongManager::getFormattedSize: either the
literal "N/A" sentinel of the error branch (line 105) or the
three-significant-digit rendering of bytes divided by 1024 twice,
followed by "MB" (lines 107-110). The digit rendering of the success
branch is kept symbolic as `mb bytes`; the two constructors stand for
strings that are never equal (the sentinel is not of that form). -/
inductive FormattedSize where
  | na : FormattedSize
  | mb : Nat → FormattedSize
deriving DecidableEq, Repr

/-- NongManager::getFormattedSize (nong_manager.cpp, lines 101-111); the
filesystem size query is the parameter, `none` when it sets the error
code. -/
def getFormattedSize (sizeResult : Option Nat) : FormattedSize :=
  match sizeResult with
  | none => FormattedSize.na
  | some size => FormattedSize.mb size

/-- The song-summing loop of NongManager::getMultiAssetSizes (lines
126-140), over the already-split comma-separated ids. `fileSize p`
models the existence check plus size query (`none` when the file does
not exist, in which case the loop adds nothing). The result is `none`
exactly when the loop dereferences the optional path of an active entry
that has none (the `.value()` call on line 133 failing); byte totals are
naturals standing for the accumulated float sum. -/
def songLoopSum (m : Manifest) (fileSize : String → Option Nat)
    (resources : String) : List Int → Option Nat
  | [] => some 0
  | id :: rest =>
    match getNongs m id with
    | none => songLoopSum m fileSize resources rest
    | some nongs =>
      match nongs.active.path with
      | none => none
      | some p =>
        let p2 := if p.startsWith "songs/" then resources ++ "/" ++ p else p
        let add :=
          match fileSize p2 with
          | some sz => sz
          | none => 0
        match songLoopSum m fileSize resources rest with
        | none => none
        | some s => some (s + add)

/-- C++ std::stoi on a filename stem: skip leading whitespace, an
optional sign, then a non-empty run of digits; `none` models the
invalid-argument throw when no conversion can be performed. (The
out-of-range throw for values beyond int is not modelled; no claim
depends on it.) -/
def stoiDigits (cs : List Char) : Option Int :=
  let ds := cs.takeWhile Char.isDigit
  if ds.isEmpty then none
  else some (Int.ofNat (ds.foldl (fun a c => a * 10 + (c.toNat - 48)) 0))

def stoi (s : String) : Option Int :=
  match s.toList.dropWhile (fun c => c = ' ' || c = '\t' || c = '\n' || c = '\r') with
  | '-' :: rest => (stoiDigits rest).map (fun v => -v)
  | '+' :: rest => stoiDigits rest
  | rest => stoiDigits rest

/-- Outcome of NongManager::loadNongsFromPath (lines 327-368) on one
file: `thrown` is the uncaught std::stoi exception on a stem with no
leading integer (line 331, not caught anywhere in the manager), the
other two are the Result of the function. -/
inductive LoadOutcome where
  | thrown : LoadOutcome
  | errored : String → LoadOutcome
  | loaded : Nongs → LoadOutcome
deriving DecidableEq, Repr

/-- The combined matjson parse plus Serialize step of loadNongsFromPath
(lines 353-364) — both live outside the given sources — as a parameter:
from the file content and the stem-derived id to an aggregate or a parse
error. The ifstream open failure is folded into the error case. -/
abbrev ParseFn := String → Int → Except String Nongs

/-- NongManager::loadNongsFromPath (lines 327-368): stoi on the stem
(propagating its exception), the explicit rejection of id 0, then the
parse step. Callers only pass .json paths, so the filename in the id-0
message is the stem plus that extension. -/
def loadNongsFromPath (parse : ParseFn) (stem content : String) : LoadOutcome :=
  match stoi stem with
  | none => LoadOutcome.thrown
  | some id =>
    if id = 0 then LoadOutcome.errored ("Invalid filename " ++ stem ++ ".json")
    else
      match parse content id with
      | Except.error e => LoadOutcome.errored e
      | Except.ok n => LoadOutcome.loaded n

/-- One directory entry of the manifest scan: filename stem, extension
(with the leading dot) and file content. -/
structure ScanFile where
  stem : String
  ext : String
  content : String
deriving DecidableEq, Repr

/-- Result of the startup scan loop of NongManager::init (lines
204-224): `finished` carries the manifest and the quarantine renames
performed (new file names, in order); `crashed` marks the uncaught stoi
exception escaping the loop at the named file. -/
inductive InitLoopOutcome where
  | finished : Manifest → List String → InitLoopOutcome
  | crashed : Manifest → List String → String → InitLoopOutcome
deriving DecidableEq, Repr

/-- The startup scan loop of NongManager::init (lines 204-224): skip
entries whose extension is not .json; on a load error rename the file to
its own name suffixed with .bak and continue; on success insert keyed by
the songID of the loaded aggregate (map insert, a no-op for a duplicate
key). -/
def initScan (parse : ParseFn) :
    List ScanFile → Manifest → List String → InitLoopOutcome
  | [], m, ren => InitLoopOutcome.finished m ren
  | f :: rest, m, ren =>
    if f.ext != ".json" then initScan parse rest m ren
    else
      match loadNongsFromPath parse f.stem f.content with
      | LoadOutcome.thrown => InitLoopOutcome.crashed m ren (f.stem ++ f.ext)
      | LoadOutcome.errored _ =>
        initScan parse rest m (ren ++ [f.stem ++ f.ext ++ ".bak"])
      | LoadOutcome.loaded n => initScan parse rest (mInsert m n.songID n) ren

/-- The return value of NongManager::init (lines 166-235) as determined
by the scan loop: `some true` when the loop finishes (init
unconditionally returns true afterwards, migration errors included),
`none` when the stoi exception escapes and init never returns. -/
def initReturnValue (parse : ParseFn) (files : List ScanFile) : Option Bool :=
  match initScan parse files [] [] with
  | InitLoopOutcome.finished _ _ => some true
  | InitLoopOutcome.crashed _ _ _ => none

/-- One iteration of the per-entry migration loop of
NongManager::migrateV2 (nong_manager.cpp, lines 266-290), translated
literally — including the comparison of the startOffset of the stored
entry with itself on lines 272-273. `defaultSong` is the default song of the legacy
record; a failure of the add call is logged and ignored. -/
def migrateEntryStep (defaultSong : LocalSong) (nongs : Nongs)
    (i : LocalSong) : Nongs :=
  if i.path == defaultSong.path then nongs
  else
    let found := nongs.locals.any (fun stored =>
      stored.metadata.startOffset == stored.metadata.startOffset &&
      stored.metadata.name == i.metadata.name &&
      stored.metadata.artist == i.metadata.artist)
    if found then nongs
    else
      match nongs.add i with
      | Except.ok n2 => n2
      | Except.error _ => nongs

/-- The full songs loop of one migrateV2 record (lines 266-290). -/
def migrateSongs (defaultSong : LocalSong) (nongs : Nongs)
    (songs : List LocalSong) : Nongs :=
  songs.foldl (fun acc i => migrateEntryStep defaultSong acc i) nongs

/-- The aggregate operations the manager entry points delegate to
(merge, setActive, deleteAllSongs, deleteSongAudio, deleteSong, commit
on the Nongs aggregate); their bodies are outside the given sources, so
the manager functions are verified for every possible behaviour of these
operations, modelled as pure state transformers with a typed failure. -/
structure NongsOps where
  merge : Nongs → Nongs → Except String Nongs
  setActive : Nongs → String → Except String Nongs
  deleteAll : Nongs → Except String Nongs
  deleteAudio : Nongs → String → Except String Nongs
  deleteOne : Nongs → String → Except String Nongs
  commit : Nongs → Except String Unit

/-- The loop of NongManager::saveNongs (lines 303-325): entries whose id
differs from a given saveID are skipped; each remaining aggregate is
committed; the first commit error aborts the loop. Returns the ids
committed, in map order, and the error if any. -/
def saveNongsGo (ops : NongsOps) (saveID : Option Int) :
    List (Int × Nongs) → List Int × Option String
  | [] => ([], none)
  | (k, n) :: rest =>
    if (match saveID with
        | some s => s != k
        | none => false) then
      saveNongsGo ops saveID rest
    else
      match ops.commit n with
      | Except.error e => ([], some e)
      | Except.ok _ =>
        let r := saveNongsGo ops saveID rest
        (k :: r.1, r.2)

/-- NongManager::saveNongs (lines 303-325). -/
def saveNongs (ops : NongsOps) (m : Manifest) (saveID : Option Int) :
    List Int × Option String :=
  saveNongsGo ops saveID m

/-- The wrapped delete-failure message of the source. The apostrophe of the
literal is spelled via its code point to keep the file ASCII-plain. -/
def couldntDeleteMsg (e : String) : String :=
  "Couldn" ++ String.singleton (Char.ofNat 39) ++ "t delete Nong: " ++ e

/-- NongManager::addNongs (lines 375-385): result manifest, committed
ids, and the error if any. -/
def addNongs (ops : NongsOps) (m : Manifest) (incoming : Nongs) :
    Manifest × List Int × Option String :=
  match mLookup m incoming.songID with
  | none => (m, [], some "Song not initialized in manifest")
  | some cur =>
    match ops.merge cur incoming with
    | Except.error e => (m, [], some e)
    | Except.ok merged =>
      let m2 := mUpdate m incoming.songID merged
      let r := saveNongs ops m2 (some merged.songID)
      (m2, r.1, r.2)

/-- NongManager::setActiveSong (lines 387-396). -/
def setActiveSong (ops : NongsOps) (m : Manifest) (gdSongID : Int)
    (uniqueID : String) : Manifest × List Int × Option String :=
  match getNongs m gdSongID with
  | none => (m, [], some "Song not initialized in manifest")
  | some cur =>
    match ops.setActive cur uniqueID with
    | Except.error e => (m, [], some e)
    | Except.ok n2 =>
      let m2 := mUpdate m gdSongID n2
      let r := saveNongs ops m2 (some gdSongID)
      (m2, r.1, r.2)

/-- NongManager::deleteAllSongs (lines 398-408). -/
def deleteAllSongs (ops : NongsOps) (m : Manifest) (gdSongID : Int) :
    Manifest × List Int × Option String :=
  match getNongs m gdSongID with
  | none => (m, [], some "Song not initialized in manifest")
  | some cur =>
    match ops.deleteAll cur with
    | Except.error e => (m, [], some e)
    | Except.ok n2 =>
      let m2 := mUpdate m gdSongID n2
      let r := saveNongs ops m2 (some gdSongID)
      (m2, r.1, r.2)

/-- NongManager::deleteSongAudio (lines 410-421); a delegate failure is
wrapped in the delete-failure message. -/
def deleteSongAudio (ops : NongsOps) (m : Manifest) (gdSongID : Int)
    (uniqueID : String) : Manifest × List Int × Option String :=
  match getNongs m gdSongID with
  | none => (m, [], some "Song not initialized in manifest")
  | some cur =>
    match ops.deleteAudio cur uniqueID with
    | Except.error e => (m, [], some (couldntDeleteMsg e))
    | Except.ok n2 =>
      let m2 := mUpdate m gdSongID n2
      let r := saveNongs ops m2 (some gdSongID)
      (m2, r.1, r.2)

/-- NongManager::deleteSong (lines 423-434): commits through the own
commit call of the aggregate rather than saveNongs; on success exactly
the affected id has been committed. -/
def deleteSong (ops : NongsOps) (m : Manifest) (gdSongID : Int)
    (uniqueID : String) : Manifest × List Int × Option String :=
  match getNongs m gdSongID with
  | none => (m, [], some "Song not initialized in manifest")
  | some cur =>
    match ops.deleteOne cur uniqueID with
    | Except.error e => (m, [], some (couldntDeleteMsg e))
    | Except.ok n2 =>
      let m2 := mUpdate m gdSongID n2
      match ops.commit n2 with
      | Except.error e => (m2, [], some e)
      | Except.ok _ => (m2, [gdSongID], none)

inductive ListenerResult where
  | stop : ListenerResult
  | propagate : ListenerResult
deriving DecidableEq, Repr

/-- The SongInfoFetched listener bound in NongManager::init (lines
176-194). The components are the manifest after the handler, the
propagation decision, and the committed-ids-and-error pair of the
per-id saveNongs call — `([], none)` when that call is not reached; its
Result is discarded by the handler either way, so propagation does not
depend on it. -/
def onSongInfoFetched (ops : NongsOps) (m : Manifest) (gdSongID : Int)
    (songName artistName : String) :
    Manifest × ListenerResult × (List Int × Option String) :=
  match getNongs m gdSongID with
  | none => (m, ListenerResult.stop, ([], none))
  | some nongs =>
    if songName == nongs.defaultSong.metadata.name &&
        artistName == nongs.defaultSong.metadata.artist then
      (m, ListenerResult.stop, ([], none))
    else
      let n2 := nongs.withDefaultMeta songName artistName
      let m2 := mUpdate m gdSongID n2
      (m2, ListenerResult.propagate, saveNongs ops m2 (some gdSongID))

/-! Helper lemmas about the association-list model of the map. -/

theorem mLookup_eq_none_of_not_contains (m : Manifest) (k : Int)
    (h : mContains m k = false) : mLookup m k = none := by
  induction m with
  | nil => rfl
  | cons p rest ih =>
    simp only [mContains, List.any_cons, Bool.or_eq_false_iff] at h
    simp only [mLookup, List.find?_cons, h.1, cond_false]
    exact ih h.2

theorem getNongs_eq_mLookup (m : Manifest) (k : Int) :
    getNongs m k = mLookup m k := by
  unfold getNongs
  cases h : mContains m k with
  | false => simp [mLookup_eq_none_of_not_contains m k h]
  | true => simp

theorem mContains_of_mLookup (m : Manifest) (k : Int) (v : Nongs)
    (h : mLookup m k = some v) : mContains m k = true := by
  cases hc : mContains m k with
  | false => rw [mLookup_eq_none_of_not_contains m k hc] at h; cases h
  | true => rfl

theorem mUpdate_keys (m : Manifest) (k : Int) (v : Nongs) :
    (mUpdate m k v).map Prod.fst = m.map Prod.fst := by
  unfold mUpdate
  rw [List.map_map]
  apply List.map_congr_left
  intro p _
  by_cases h : (p.1 == k) = true
  · have hk : p.1 = k := by simpa using h
    simp [Function.comp, h, hk]
  · have h' : (p.1 == k) = false := by simpa using h
    simp [Function.comp, h']

theorem mLookup_cons_self (k : Int) (v : Nongs) (rest : Manifest) :
    mLookup ((k, v) :: rest) k = some v := by
  simp [mLookup, List.find?_cons]

theorem mLookup_mUpdate (m : Manifest) (k : Int) (v : Nongs)
    (h : mContains m k = true) : mLookup (mUpdate m k v) k = some v := by
  induction m with
  | nil => simp [mContains] at h
  | cons p rest ih =>
    by_cases hp : (p.1 == k) = true
    · have hhead : (if p.1 == k then (k, v) else p) = (k, v) := by simp [hp]
      unfold mUpdate
      rw [List.map_cons, hhead]
      exact mLookup_cons_self k v _
    · have hp' : (p.1 == k) = false := by simpa using hp
      have hc : mContains rest k = true := by
        simpa [mContains, List.any_cons, hp'] using h
      have hhead : (if p.1 == k then (k, v) else p) = p := by simp [hp']
      unfold mUpdate
      rw [List.map_cons, hhead]
      simp only [mLookup, List.find?_cons, hp', cond_false]
      exact ih hc

theorem saveNongsGo_nil_of_not_mem (ops : NongsOps) (id : Int) :
    ∀ entries : List (Int × Nongs), (∀ p ∈ entries, p.1 ≠ id) →
      saveNongsGo ops (some id) entries = ([], none) := by
  intro entries
  induction entries with
  | nil => intro _; rfl
  | cons p rest ih =>
    intro h
    have hne : p.1 ≠ id := h p (by simp)
    have hskip : (id != p.1) = true := by
      simp [bne_iff_ne]
      exact fun he => hne he.symm
    simp only [saveNongsGo, hskip, if_true]
    exact ih (fun q hq => h q (by simp [hq]))

theorem saveNongsGo_single (ops : NongsOps) (id : Int) (n : Nongs) :
    ∀ entries : List (Int × Nongs), (entries.map Prod.fst).Nodup →
      mLookup entries id = some n → ops.commit n = Except.ok () →
      saveNongsGo ops (some id) entries = ([id], none) := by
  intro entries
  induction entries with
  | nil => intro _ h _; simp [mLookup] at h
  | cons p rest ih =>
    intro hnd hlk hok
    simp only [List.map_cons, List.nodup_cons] at hnd
    by_cases hp : (p.1 == id) = true
    · have hpk : p.1 = id := by simpa using hp
      have hval : p.2 = n := by
        simpa only [mLookup, List.find?_cons, hp, cond_true,
          Option.map_some', Option.some.injEq] using hlk
      have hrest : ∀ q ∈ rest, q.1 ≠ id := by
        intro q hq he
        exact hnd.1 (hpk ▸ he ▸ List.mem_map_of_mem Prod.fst hq)
      simp [saveNongsGo, hval, hok,
        saveNongsGo_nil_of_not_mem ops id rest hrest, hpk]
    · have hp' : (p.1 == id) = false := by simpa using hp
      have hskip : (id != p.1) = true := by
        simp only [bne_iff_ne, ne_eq]
        intro he
        simp [he] at hp'
      have hlk2 : mLookup rest id = some n := by
        simpa only [mLookup, List.find?_cons, hp', cond_false] using hlk
      simp only [saveNongsGo, hskip, if_true]
      exact ih hnd.2 hlk2 hok

/-! Claim C9. -/

/-- C9: adjustSongID with robtop = true is idempotent — an already
negative id is returned unchanged rather than negated again — and with
robtop = false it is the identity. -/
theorem C9_adjustSongID_idempotent (id : Int) :
    adjustSongID (adjustSongID id true) true = adjustSongID id true ∧
    adjustSongID id false = id := by
  refine ⟨?_, rfl⟩
  by_cases h : id < 0
  · simp [adjustSongID, h]
  · have h1 : -id - 1 < 0 := by omega
    simp [adjustSongID, h, h1]

/-! Claim C1. -/

def c1Env : InitEnv :=
  ⟨fun _ => "audio.ogg", "/gd", "uid-new", fun _ => none,
    fun _ => "/gd/songs/5.mp3"⟩

def c1Existing : Nongs :=
  Nongs.new (-6) ⟨⟨-6, "uid-old", "OldName", "OldArtist", 0⟩,
    "/gd/Resources/old.ogg"⟩

def c1Manifest : ManifestN := [(-6, some c1Existing)]

/-- C1 (code bug): with an aggregate already stored under the derived
key -6, initSongID with obj present, id 5 and robtop true does not
return early and does not leave the manifest unchanged: the existence
check uses the raw id 5, the insert at the derived key -6 is a no-op,
and the post-insertion bracket lookup at the raw id 5 default-constructs
a null entry, which is then handed to the index registration. -/
theorem C1_initSongID_robtop_key_mismatch :
    initSongID c1Env c1Manifest (some ⟨"NewName", "NewArtist"⟩) 5 true
      = (c1Manifest ++ [(5, (none : Option Nongs))],
          some (none : Option Nongs)) ∧
    c1Manifest ++ [(5, (none : Option Nongs))] ≠ c1Manifest := by
  constructor
  · rfl
  · decide

/-! Claim C8. -/

/-- C8 counterexample: for a path whose size cannot be read,
getFormattedSize returns the distinct "N/A" sentinel, which is not the
formatted zero total the claim promises. -/
theorem C8_counterexample_sentinel :
    getFormattedSize none = FormattedSize.na ∧
    getFormattedSize none ≠ getFormattedSize (some 0) := by
  constructor
  · rfl
  · decide

/-- C8 (amended): for every path whose file size cannot be read,
getFormattedSize returns the distinct "N/A" sentinel; the formatted
megabyte total is produced only when the size is available. Missing
files contribute zero only in the separate getMultiAssetSizes sum. -/
theorem C8_amended_na_sentinel :
    getFormattedSize none = FormattedSize.na ∧
    ∀ n : Nat, getFormattedSize (some n) = FormattedSize.mb n :=
  ⟨rfl, fun _ => rfl⟩

/-! Claim C2. -/

def c2Default : LocalSong := ⟨⟨5, "uid-d", "Def", "DefArtist", 0⟩, "/d.ogg"⟩

def c2Stored : LocalSong := ⟨⟨5, "uid-1", "A", "B", 0⟩, "/a.ogg"⟩

def c2Incoming : LocalSong := ⟨⟨5, "uid-2", "A", "B", 5⟩, "/b.ogg"⟩

def c2Nongs : Nongs := ⟨5, c2Default, [c2Stored], [], [], "uid-d"⟩

/-- C2 (code bug): a legacy entry whose path differs from the default path
and whose (name, artist, startOffset) triple matches no stored local
entry — it differs in startOffset — is nevertheless skipped by the
migration loop, because the loop compares the startOffset of the
stored entry with itself; the claim (and the stated intent of the spec) requires it to be
added. -/
theorem C2_migrate_dedup_self_compare :
    migrateEntryStep c2Default c2Nongs c2Incoming = c2Nongs ∧
    c2Incoming.path ≠ c2Default.path ∧
    (∀ s ∈ c2Nongs.locals,
      ¬(s.metadata.name = c2Incoming.metadata.name ∧
        s.metadata.artist = c2Incoming.metadata.artist ∧
        s.metadata.startOffset = c2Incoming.metadata.startOffset)) := by
  refine ⟨rfl, by decide, by decide⟩

/-! Claim C3. -/

def c3Parse : ParseFn := fun _ id =>
  Except.ok (Nongs.new id (LocalSong.createUnknown id))

def c3Files : List ScanFile := [⟨"abc", ".json", "x"⟩, ⟨"8", ".json", "x"⟩]

/-- C3 (code bug): on a .json file whose stem has no leading integer,
stoi throws and nothing catches the exception, so the scan loop aborts
at abc.json: the file is not silently skipped, the following valid file
8.json is never loaded, and init does not return. -/
theorem C3_nonIntegerStem_crashes :
    initScan c3Parse c3Files [] []
      = InitLoopOutcome.crashed [] [] "abc.json" ∧
    initReturnValue c3Parse c3Files = none := by
  constructor
  · rfl
  · rfl

/-! Claim C4. -/

def c4Parse : ParseFn := fun content id =>
  Except.ok (Nongs.new id ⟨⟨id, content, content, content, 0⟩, ""⟩)

def c4First : ScanFile := ⟨"5", ".json", "A"⟩

def c4Second : ScanFile := ⟨"05", ".json", "B"⟩

def c4NongsA : Nongs := Nongs.new 5 ⟨⟨5, "A", "A", "A", 0⟩, ""⟩

def c4NongsB : Nongs := Nongs.new 5 ⟨⟨5, "B", "B", "B", 0⟩, ""⟩

/-- C4 counterexample: the files 5.json and 05.json both load
successfully to aggregates with songID 5; the startup scan keeps the
first aggregate but performs no quarantine rename at all — the aggregate of the
second file is silently dropped, refuting the claim that every
later duplicate file is renamed to a .bak name. -/
theorem C4_counterexample_no_quarantine :
    initScan c4Parse [c4First, c4Second] [] []
      = InitLoopOutcome.finished [(5, c4NongsA)] [] ∧
    loadNongsFromPath c4Parse c4Second.stem c4Second.content
      = LoadOutcome.loaded c4NongsB ∧
    c4NongsB.songID = 5 ∧ c4NongsA ≠ c4NongsB := by
  refine ⟨rfl, rfl, rfl, by decide⟩

/-- C4 (amended): when a later .json file successfully loads to an
aggregate whose songID is already in the manifest, the scan keeps the
first-loaded aggregate and simply continues — the manifest, the
quarantine list and the rest of the scan are exactly as if the
duplicate file were absent; in particular the duplicate is not renamed
to a .bak name. -/
theorem C4_amended_duplicate_dropped (p : ParseFn) (f : ScanFile)
    (rest : List ScanFile) (m : Manifest) (ren : List String) (n : Nongs)
    (hext : f.ext = ".json")
    (hload : loadNongsFromPath p f.stem f.content = LoadOutcome.loaded n)
    (hdup : mContains m n.songID = true) :
    initScan p (f :: rest) m ren = initScan p rest m ren := by
  simp only [initScan, hext, bne_self_eq_false, Bool.false_eq_true, if_false,
    hload, mInsert, hdup, if_true]

/-- C4 witness: the amended statement applied to the concrete duplicate
scenario of the counterexample. -/
theorem C4_amended_witness :
    initScan c4Parse [c4Second] [(5, c4NongsA)] []
      = initScan c4Parse [] [(5, c4NongsA)] [] :=
  C4_amended_duplicate_dropped c4Parse c4Second [] [(5, c4NongsA)] []
    c4NongsB rfl rfl (by decide)

/-! Claim C7. -/

theorem initScan_finishes (p : ParseFn) :
    ∀ (files : List ScanFile) (m : Manifest) (ren : List String),
      (∀ g ∈ files, g.ext = ".json" →
        loadNongsFromPath p g.stem g.content ≠ LoadOutcome.thrown) →
      ∃ m2 ren2, initScan p files m ren = InitLoopOutcome.finished m2 ren2 := by
  intro files
  induction files with
  | nil => intro m ren _; exact ⟨m, ren, rfl⟩
  | cons f rest ih =>
    intro m ren h
    by_cases hext : f.ext = ".json"
    · have hf := h f (List.mem_cons_self f rest) hext
      have hbne : (f.ext != ".json") = false := by simp [hext]
      cases hl : loadNongsFromPath p f.stem f.content with
      | thrown => exact absurd hl hf
      | errored e =>
        obtain ⟨m2, ren2, hrec⟩ := ih m (ren ++ [f.stem ++ f.ext ++ ".bak"])
          (fun g hg => h g (List.mem_cons_of_mem f hg))
        refine ⟨m2, ren2, ?_⟩
        simp only [initScan, hbne, Bool.false_eq_true, if_false, hl]
        exact hrec
      | loaded n =>
        obtain ⟨m2, ren2, hrec⟩ := ih (mInsert m n.songID n) ren
          (fun g hg => h g (List.mem_cons_of_mem f hg))
        refine ⟨m2, ren2, ?_⟩
        simp only [initScan, hbne, Bool.false_eq_true, if_false, hl]
        exact hrec
    · have hbne : (f.ext != ".json") = true := by simp [bne_iff_ne, hext]
      obtain ⟨m2, ren2, hrec⟩ := ih m ren
        (fun g hg => h g (List.mem_cons_of_mem f hg))
      refine ⟨m2, ren2, ?_⟩
      simp only [initScan, hbne, if_true]
      exact hrec

/-- C7: a .json file whose load fails with an error (unparseable
content, or the integer stem 0) is renamed to its own name suffixed
with .bak; the scan continues with the remaining files, inserting no
aggregate for the failed one; and provided no remaining .json file hits
the uncaught stoi exception, the loop finishes and init returns
true. -/
theorem C7_quarantine_continue (p : ParseFn) (f : ScanFile)
    (rest : List ScanFile) (m : Manifest) (ren : List String) (e : String)
    (hext : f.ext = ".json")
    (herr : loadNongsFromPath p f.stem f.content = LoadOutcome.errored e)
    (hrest : ∀ g ∈ rest, g.ext = ".json" →
      loadNongsFromPath p g.stem g.content ≠ LoadOutcome.thrown) :
    initScan p (f :: rest) m ren
      = initScan p rest m (ren ++ [f.stem ++ f.ext ++ ".bak"]) ∧
    initReturnValue p (f :: rest) = some true := by
  have hbne : (f.ext != ".json") = false := by simp [hext]
  have hstep : ∀ (m' : Manifest) (ren' : List String),
      initScan p (f :: rest) m' ren'
        = initScan p rest m' (ren' ++ [f.stem ++ f.ext ++ ".bak"]) := by
    intro m' ren'
    simp only [initScan, hbne, Bool.false_eq_true, if_false, herr]
  refine ⟨hstep m ren, ?_⟩
  obtain ⟨m2, ren2, hfin⟩ :=
    initScan_finishes p rest [] ([] ++ [f.stem ++ f.ext ++ ".bak"]) hrest
  unfold initReturnValue
  rw [hstep [] [], hfin]

def c7Parse : ParseFn := fun content id =>
  if content = "good" then Except.ok (Nongs.new id (LocalSong.createUnknown id))
  else Except.error "Parse error"

def c7Bad : ScanFile := ⟨"0", ".json", "good"⟩

def c7Good : ScanFile := ⟨"8", ".json", "good"⟩

/-- C7 witness: the file 0.json fails its load with the invalid-filename
error, is renamed to 0.json.bak, the scan continues with 8.json, and
init returns true. -/
theorem C7_witness :
    initScan c7Parse [c7Bad, c7Good] [] []
      = initScan c7Parse [c7Good] [] [c7Bad.stem ++ c7Bad.ext ++ ".bak"] ∧
    initReturnValue c7Parse [c7Bad, c7Good] = some true := by
  have h := C7_quarantine_continue c7Parse c7Bad [c7Good] [] []
    ("Invalid filename " ++ "0" ++ ".json") rfl rfl (by decide)
  simpa using h

/-! Claim C5. -/

/-- C5: the SongInfoFetched handler stops propagation and changes
nothing when no aggregate exists for the id; stops propagation and
changes nothing when the name and artist of the default entry already
equal those of the event; and otherwise rewrites the name and artist of
the default entry,
runs the per-id save — which, commit succeeding, commits exactly the
affected id — and lets the event propagate. -/
theorem C5_songInfoFetched_cases (ops : NongsOps) (m : Manifest)
    (g : Int) (nm ar : String) :
    (getNongs m g = none →
      onSongInfoFetched ops m g nm ar = (m, ListenerResult.stop, ([], none))) ∧
    (∀ n, getNongs m g = some n →
      nm = n.defaultSong.metadata.name → ar = n.defaultSong.metadata.artist →
      onSongInfoFetched ops m g nm ar = (m, ListenerResult.stop, ([], none))) ∧
    (∀ n, getNongs m g = some n →
      ¬(nm = n.defaultSong.metadata.name ∧ ar = n.defaultSong.metadata.artist) →
      onSongInfoFetched ops m g nm ar
        = (mUpdate m g (n.withDefaultMeta nm ar), ListenerResult.propagate,
            saveNongs ops (mUpdate m g (n.withDefaultMeta nm ar)) (some g)) ∧
      (keysNodup m → ops.commit (n.withDefaultMeta nm ar) = Except.ok () →
        saveNongs ops (mUpdate m g (n.withDefaultMeta nm ar)) (some g)
          = ([g], none))) := by
  refine ⟨?_, ?_, ?_⟩
  · intro h
    simp [onSongInfoFetched, h]
  · intro n h hnm har
    have hc : (nm == n.defaultSong.metadata.name &&
        ar == n.defaultSong.metadata.artist) = true := by
      simp [hnm, har]
    simp [onSongInfoFetched, h, hc]
  · intro n h hne
    have hc : (nm == n.defaultSong.metadata.name &&
        ar == n.defaultSong.metadata.artist) = false := by
      rcases Decidable.em (nm = n.defaultSong.metadata.name) with h1 | h1
      · rcases Decidable.em (ar = n.defaultSong.metadata.artist) with h2 | h2
        · exact absurd ⟨h1, h2⟩ hne
        · simp [h2]
      · simp [h1]
    refine ⟨by simp [onSongInfoFetched, h, hc], ?_⟩
    intro hnd hok
    have hlk : mLookup m g = some n := by
      rw [← getNongs_eq_mLookup]; exact h
    have hcont : mContains m g = true := mContains_of_mLookup m g n hlk
    have hnd2 : ((mUpdate m g (n.withDefaultMeta nm ar)).map Prod.fst).Nodup := by
      rw [mUpdate_keys]; exact hnd
    exact saveNongsGo_single ops g (n.withDefaultMeta nm ar) _ hnd2
      (mLookup_mUpdate m g (n.withDefaultMeta nm ar) hcont) hok

/-- Aggregate operations with a fixed successful commit, for the
concrete instantiations of the C5 and C6 theorems. -/
def cOps : NongsOps :=
  ⟨fun _ _ => Except.error "unused", fun _ _ => Except.error "unused",
    fun _ => Except.error "unused", fun _ _ => Except.error "unused",
    fun _ _ => Except.error "unused", fun _ => Except.ok ()⟩

def c5Nongs : Nongs :=
  Nongs.new 99 ⟨⟨99, "uid-99", "Old", "OldArtist", 0⟩, "/99.ogg"⟩

def c5Manifest : Manifest := [(99, c5Nongs)]

/-- C5 witness: a SongInfoFetched event with fresh name and artist on an
existing aggregate updates the default entry, commits exactly id 99, and
propagates. -/
theorem C5_witness :
    onSongInfoFetched cOps c5Manifest 99 "New" "Artist"
      = (mUpdate c5Manifest 99 (c5Nongs.withDefaultMeta "New" "Artist"),
          ListenerResult.propagate,
          saveNongs cOps
            (mUpdate c5Manifest 99 (c5Nongs.withDefaultMeta "New" "Artist"))
            (some 99)) ∧
    saveNongs cOps
        (mUpdate c5Manifest 99 (c5Nongs.withDefaultMeta "New" "Artist"))
        (some 99)
      = ([99], none) := by
  have h := (C5_songInfoFetched_cases cOps c5Manifest 99 "New" "Artist").2.2
    c5Nongs rfl (by decide)
  exact ⟨h.1, h.2 (by decide) rfl⟩

/-! Claim C6. -/

/-- C6: each of the five mutation entry points fails with the
not-initialized error and leaves the manifest unchanged when no
aggregate exists for the id; when one exists, each delegates to the
corresponding aggregate operation and then — the delegate and the commit
succeeding — commits exactly the affected id. -/
theorem C6_manager_guard_and_commit (ops : NongsOps) (m : Manifest)
    (id : Int) (uid : String) (inc : Nongs) (hinc : inc.songID = id)
    (hnd : keysNodup m) :
    (getNongs m id = none →
      addNongs ops m inc = (m, [], some "Song not initialized in manifest") ∧
      setActiveSong ops m id uid
        = (m, [], some "Song not initialized in manifest") ∧
      deleteAllSongs ops m id
        = (m, [], some "Song not initialized in manifest") ∧
      deleteSongAudio ops m id uid
        = (m, [], some "Song not initialized in manifest") ∧
      deleteSong ops m id uid
        = (m, [], some "Song not initialized in manifest")) ∧
    (∀ cur, getNongs m id = some cur →
      (∀ merged, ops.merge cur inc = Except.ok merged → merged.songID = id →
        ops.commit merged = Except.ok () →
        addNongs ops m inc = (mUpdate m id merged, [id], none)) ∧
      (∀ n2, ops.setActive cur uid = Except.ok n2 →
        ops.commit n2 = Except.ok () →
        setActiveSong ops m id uid = (mUpdate m id n2, [id], none)) ∧
      (∀ n2, ops.deleteAll cur = Except.ok n2 →
        ops.commit n2 = Except.ok () →
        deleteAllSongs ops m id = (mUpdate m id n2, [id], none)) ∧
      (∀ n2, ops.deleteAudio cur uid = Except.ok n2 →
        ops.commit n2 = Except.ok () →
        deleteSongAudio ops m id uid = (mUpdate m id n2, [id], none)) ∧
      (∀ n2, ops.deleteOne cur uid = Except.ok n2 →
        ops.commit n2 = Except.ok () →
        deleteSong ops m id uid = (mUpdate m id n2, [id], none))) := by
  constructor
  · intro h
    have hlk : mLookup m id = none := by
      rw [← getNongs_eq_mLookup]; exact h
    refine ⟨?_, ?_, ?_, ?_, ?_⟩
    · simp [addNongs, hinc, hlk]
    · simp [setActiveSong, h]
    · simp [deleteAllSongs, h]
    · simp [deleteSongAudio, h]
    · simp [deleteSong, h]
  · intro cur hcur
    have hlk : mLookup m id = some cur := by
      rw [← getNongs_eq_mLookup]; exact hcur
    have hcont : mContains m id = true := mContains_of_mLookup m id cur hlk
    have hsave : ∀ n2 : Nongs, ops.commit n2 = Except.ok () →
        saveNongs ops (mUpdate m id n2) (some id) = ([id], none) := by
      intro n2 hok
      have hnd2 : ((mUpdate m id n2).map Prod.fst).Nodup := by
        rw [mUpdate_keys]; exact hnd
      exact saveNongsGo_single ops id n2 _ hnd2
        (mLookup_mUpdate m id n2 hcont) hok
    refine ⟨?_, ?_, ?_, ?_, ?_⟩
    · intro merged hm hms hok
      simp [addNongs, hinc, hlk, hm, hms, hsave merged hok]
    · intro n2 hop hok
      simp [setActiveSong, hcur, hop, hsave n2 hok]
    · intro n2 hop hok
      simp [deleteAllSongs, hcur, hop, hsave n2 hok]
    · intro n2 hop hok
      simp [deleteSongAudio, hcur, hop, hsave n2 hok]
    · intro n2 hop hok
      simp [deleteSong, hcur, hop, hok]

def c6Cur : Nongs :=
  Nongs.new 9 ⟨⟨9, "uid-9", "Nine", "NineArtist", 0⟩, "/9.ogg"⟩

def c6New : Nongs :=
  ⟨9, c6Cur.defaultSong, [], [], [], "uid-9"⟩

/-- Aggregate operations that succeed with a fixed resulting aggregate,
for the concrete instantiation of the C6 theorem. -/
def c6Ops : NongsOps :=
  ⟨fun _ _ => Except.ok c6New, fun _ _ => Except.ok c6New,
    fun _ => Except.ok c6New, fun _ _ => Except.ok c6New,
    fun _ _ => Except.ok c6New, fun _ => Except.ok ()⟩

def c6Manifest : Manifest := [(9, c6Cur)]

def c6Inc : Nongs :=
  Nongs.new 9 ⟨⟨9, "uid-9b", "NineTwo", "ArtistTwo", 0⟩, "/9b.ogg"⟩

/-- C6 witness: on an existing aggregate, setActiveSong delegates and
commits exactly id 9; on an empty manifest, deleteSong fails with the
not-initialized error and changes nothing. -/
theorem C6_witness :
    setActiveSong c6Ops c6Manifest 9 "uid-9"
      = (mUpdate c6Manifest 9 c6New, [9], none) ∧
    deleteSong c6Ops [] 9 "uid-9"
      = ([], [], some "Song not initialized in manifest") := by
  constructor
  · exact ((C6_manager_guard_and_commit c6Ops c6Manifest 9 "uid-9" c6Inc rfl
      (by decide)).2 c6Cur rfl).2.1 c6New rfl rfl
  · exact ((C6_manager_guard_and_commit c6Ops [] 9 "uid-9" c6Inc rfl
      (by decide)).1 rfl).2.2.2.2

/-! Claim C10. -/

theorem songLoopSum_total (m : Manifest) (fileSize : String → Option Nat)
    (resources : String) :
    ∀ ids : List Int,
      (∀ id ∈ ids, ∀ n, getNongs m id = some n →
        (Nongs.active n).path.isSome) →
      ∃ s, songLoopSum m fileSize resources ids = some s := by
  intro ids
  induction ids with
  | nil => intro _; exact ⟨0, rfl⟩
  | cons id rest ih =>
    intro h
    obtain ⟨s, hs⟩ := ih (fun i hi n hn => h i (List.mem_cons_of_mem id hi) n hn)
    cases hg : getNongs m id with
    | none =>
      refine ⟨s, ?_⟩
      simp only [songLoopSum, hg]
      exact hs
    | some n =>
      have hp := h id (List.mem_cons_self id rest) n hg
      cases hps : (Nongs.active n).path with
      | none => rw [hps] at hp; simp at hp
      | some pa =>
        refine ⟨s + (match fileSize
            (if pa.startsWith "songs/" then resources ++ "/" ++ pa else pa) with
          | some sz => sz
          | none => 0), ?_⟩
        simp only [songLoopSum, hg, hps, hs]

def c10Bad : Nongs :=
  ⟨7, ⟨⟨7, "uid-d7", "Seven", "SevenArtist", 0⟩, "/7.ogg"⟩, [],
    [Song.youtube ⟨7, "uid-y7", "YtName", "YtArtist", 0⟩ "https://yt"], [],
    "uid-y7"⟩

def c10BadManifest : Manifest := [(7, c10Bad)]

/-- C10: the song loop of getMultiAssetSizes dereferences the optional
path of the active entry for every id whose aggregate exists: whenever
every such active entry has a path the loop computes a total, and on a
manifest where the active entry of the aggregate is a pathless Youtube
candidate
the computation fails (the optional access, modelled as `none`). -/
theorem C10_active_path_deref (m : Manifest)
    (fileSize : String → Option Nat) (resources : String) (ids : List Int)
    (h : ∀ id ∈ ids, ∀ n, getNongs m id = some n →
      (Nongs.active n).path.isSome) :
    (∃ s, songLoopSum m fileSize resources ids = some s) ∧
    songLoopSum c10BadManifest fileSize resources [7] = none := by
  exact ⟨songLoopSum_total m fileSize resources ids h, rfl⟩

def c10Good : Nongs :=
  Nongs.new 3 ⟨⟨3, "uid-3", "Three", "ThreeArtist", 0⟩, "/3.ogg"⟩

def c10GoodManifest : Manifest := [(3, c10Good)]

/-- C10 witness: on a manifest whose only aggregate keeps its default
(with a path) active, the loop totals; on the pathless-active manifest
it fails. -/
theorem C10_witness :
    (∃ s, songLoopSum c10GoodManifest (fun _ => some 10) "/res" [3] = some s) ∧
    songLoopSum c10BadManifest (fun _ => some 10) "/res" [7] = none := by
  refine C10_active_path_deref c10GoodManifest (fun _ => some 10) "/res" [3] ?_
  intro i hi n hn
  have hi3 : i = 3 := by simpa using hi
  subst hi3
  have hn2 : some c10Good = some n := hn
  cases hn2
  rfl

end Jukebox
